import Mathlib

/-
Shallow embedding of `src/api/proxy.js` (Vercel edge proxy, Limkon/verceltocf).

The handler:
  1. reads the `target` query parameter of the inbound URL; a falsy value
     (absent or empty string) yields an immediate 400 response;
  2. parses `target` as an absolute URL (`new URL`, throws TypeError on
     failure, caught by the surrounding try/catch and reported as 502);
  3. overwrites the parsed URL's pathname with the inbound request's path,
     and copies every non-`target` inbound query parameter onto it via
     `URLSearchParams.set` (replace-first, drop duplicates, append if absent);
  4. copies the inbound headers, sets `Host` to the derived URL's host and
     deletes `x-forwarded-host` and `x-vercel-id` (Headers normalises names
     to lower case; the model works with the normalised names);
  5. arms an AbortController with a 15000 ms setTimeout, fetches, and calls
     clearTimeout once the fetch resolves; a rejection (name `AbortError`
     when the abort signal fired) reaches the catch block and is reported as
     502 with a fixed timeout message, any other rejection with its message;
  6. pipes the upstream body through a TransformStream counting bytes: each
     chunk first increases the counter; if the counter exceeds MAX_BYTES the
     transform errors the stream without enqueueing that chunk, otherwise the
     chunk is enqueued; pipe errors are swallowed by `.catch(() => {})`;
  7. returns a Response with the upstream status, statusText and headers and
     the readable side of the transform as body.

URL parsing and the network are platform facilities, so the handler is
parametrised by a parse function and a fetch environment; everything the
handler itself does is modelled concretely.
-/

namespace VercelToCF

/-- `const MAX_BYTES = 10 * 1024 * 1024` (proxy.js line 8). -/
def MAX_BYTES : Nat := 10 * 1024 * 1024

/-- `const MAX_DURATION_MS = 15000` (proxy.js line 12). -/
def MAX_DURATION_MS : Nat := 15000

/-- A query string as an ordered list of key/value pairs, the view
`URLSearchParams` exposes. -/
abbrev KV := String × String

/-- `searchParams.get(key)`: value of the first pair with the given key. -/
def getParam : List KV → String → Option String
  | [], _ => none
  | (k, v) :: rest, key => if k = key then some v else getParam rest key

/-- Drop every pair with the given key (helper for `setParam`). -/
def removeParam : List KV → String → List KV
  | [], _ => []
  | (k, v) :: rest, key =>
    if k = key then removeParam rest key else (k, v) :: removeParam rest key

/-- `searchParams.set(key, val)`: replace the first pair with this key and
drop the other pairs with it; append if the key is absent. -/
def setParam : List KV → String → String → List KV
  | [], key, val => [(key, val)]
  | (k, v) :: rest, key, val =>
    if k = key then (key, val) :: removeParam rest key
    else (k, v) :: setParam rest key val

/-- Number of pairs carrying the given key. -/
def countKey : List KV → String → Nat
  | [], _ => 0
  | (k, _) :: rest, key => (if k = key then 1 else 0) + countKey rest key

/-- Value of the last pair with the given key, if any. -/
def lastVal : List KV → String → Option String
  | [], _ => none
  | (k, v) :: rest, key =>
    match lastVal rest key with
    | some w => some w
    | none => if k = key then some v else none

/-- The keys of a query string. -/
def keysOf (q : List KV) : List String := q.map Prod.fst

/-- The query-merge loop of proxy.js lines 31-35:
`url.searchParams.forEach((value, key) => { if (key !== 'target')
targetUrl.searchParams.set(key, value); })`. -/
def mergeQuery (tq : List KV) (inq : List KV) : List KV :=
  inq.foldl (fun acc p => if p.1 = "target" then acc else setParam acc p.1 p.2) tq

/-- Header maps: `Headers` normalises names to lower case, so the model is a
partial map keyed by the normalised name. -/
abbrev HeadersMap := String → Option String

def emptyHeaders : HeadersMap := fun _ => none

/-- `headers.set(k, v)`. -/
def hset (h : HeadersMap) (k v : String) : HeadersMap :=
  fun k' => if k' = k then some v else h k'

/-- `headers.delete(k)`. -/
def hdel (h : HeadersMap) (k : String) : HeadersMap :=
  fun k' => if k' = k then none else h k'

/-- Parsed absolute URL (`new URL` result): `host` is the authority
(host plus port), `pathname` and the parsed query pairs as exposed by
`searchParams`. -/
structure URLRec where
  scheme : String
  host : String
  pathname : String
  query : List KV
  deriving DecidableEq, Repr

/-- The inbound request, pre-parsed the way `new URL(req.url)` and
`req.headers` expose it. -/
structure RequestRec where
  method : String
  path : String
  query : List KV
  headers : HeadersMap
  body : Option (List Nat)

/-- The argument bundle of the `fetch` call (proxy.js lines 49-55). -/
structure OutboundRequest where
  url : URLRec
  method : String
  headers : HeadersMap
  body : Option (List Nat)
  redirect : String

/-- A body chunk: its byte contents. -/
abbrev Chunk := List Nat

/-- What the readable side of the counting TransformStream delivers: the
chunks forwarded, then either a clean close or a stream error. -/
inductive StreamResult where
  | complete (delivered : List Chunk)
  | errored (delivered : List Chunk) (msg : String)
  deriving DecidableEq, Repr

/-- Prefix one forwarded chunk onto a stream outcome. -/
def StreamResult.prepend (c : Chunk) : StreamResult → StreamResult
  | .complete ds => .complete (c :: ds)
  | .errored ds m => .errored (c :: ds) m

/-- The error message built at proxy.js line 68:
`Traffic Limit Exceeded: >${MAX_BYTES/1024/1024}MB`. -/
def TRAFFIC_MSG : String :=
  "Traffic Limit Exceeded: >" ++ toString (MAX_BYTES / 1024 / 1024) ++ "MB"

/-- The counting transform (proxy.js lines 62-76) applied to the list of
upstream chunks, carrying the running `downloadedBytes` counter: the chunk
length is added first; if the counter then exceeds the limit the stream is
errored and the crossing chunk is not enqueued, otherwise the chunk is
enqueued and the rest of the stream is processed. -/
def relay (limit : Nat) : Nat → List Chunk → StreamResult
  | _, [] => .complete []
  | n, c :: rest =>
    if n + c.length > limit then .errored [] TRAFFIC_MSG
    else (relay limit (n + c.length) rest).prepend c

/-- Body of the caller-facing Response. -/
inductive RespBody where
  | text (s : String)
  | stream (r : StreamResult)
  | noPipe
  deriving DecidableEq, Repr

/-- The caller-facing Response. -/
structure ResponseRec where
  status : Nat
  statusText : String
  headers : HeadersMap
  body : RespBody

/-- `new Response(text, { status })`: default statusText, no headers. -/
def errorResponse (status : Nat) (body : String) : ResponseRec :=
  { status := status, statusText := "", headers := emptyHeaders, body := .text body }

/-- Result of the `fetch` platform call: either a Response (status,
statusText, headers, optional body stream) or a rejection carrying an error
name and message. -/
inductive FetchOutcome where
  | success (status : Nat) (statusText : String) (headers : HeadersMap)
      (body : Option (List Chunk))
  | failure (name : String) (message : String)

/-- Result of the `new URL(target)` platform call: a parsed URL, or the
message of the TypeError it throws. -/
inductive ParseOutcome where
  | ok (u : URLRec)
  | err (message : String)

/-- What the handler produced: the Response returned to the caller, and the
fetch call it issued, if any. -/
structure HandlerOutput where
  response : ResponseRec
  fetchCall : Option OutboundRequest

/-- proxy.js line 20: body of the 400 response. -/
def MISSING_MSG : String := "Error: Missing \"target\" query parameter."

/-- proxy.js line 92: `e.name === 'AbortError' ? 'Connection Timed Out
(Policy Limit)' : e.message`. -/
def blockedMsg (name message : String) : String :=
  if name = "AbortError" then "Connection Timed Out (Policy Limit)" else message

/-- proxy.js line 28: `targetUrl.pathname = url.pathname`, then lines 31-35:
the query merge. -/
def derivedURL (req : RequestRec) (u : URLRec) : URLRec :=
  { u with pathname := req.path, query := mergeQuery u.query req.query }

/-- proxy.js lines 38-41: copy the inbound headers, set `Host` to the derived
URL's host, delete `x-forwarded-host` and `x-vercel-id` (names as normalised
by `Headers`). -/
def derivedHeaders (req : RequestRec) (u : URLRec) : HeadersMap :=
  hdel (hdel (hset req.headers "host" (derivedURL req u).host) "x-forwarded-host") "x-vercel-id"

/-- The fetch argument bundle of proxy.js lines 49-55. -/
def derivedRequest (req : RequestRec) (u : URLRec) : OutboundRequest :=
  { url := derivedURL req u
    method := req.method
    headers := derivedHeaders req u
    body := req.body
    redirect := "follow" }

/-- Upstream body to caller body: `response.body` absent means the transform
readable is returned with nothing ever piped into it; otherwise the chunks go
through the counting transform. -/
def upstreamBody : Option (List Chunk) → RespBody
  | none => .noPipe
  | some chunks => .stream (relay MAX_BYTES 0 chunks)

/-- The part of the handler after a successful `new URL(target)`: issue the
fetch; a rejection is caught (line 90) and reported via `blockedMsg`; a
response is relayed through the counting transform with the upstream status,
statusText and headers (lines 83-88). Pipe errors are swallowed
(`.catch(() => {})`, line 81), so this stage always returns a Response. -/
def forwardStage (req : RequestRec) (u : URLRec)
    (fetchEnv : OutboundRequest → FetchOutcome) : HandlerOutput :=
  let outReq := derivedRequest req u
  match fetchEnv outReq with
  | .failure name msg =>
    { response := errorResponse 502 ("Proxy Blocked: " ++ blockedMsg name msg)
      fetchCall := some outReq }
  | .success status st rh rb =>
    { response := { status := status, statusText := st, headers := rh, body := upstreamBody rb }
      fetchCall := some outReq }

/-- The default export `handler(req)` of proxy.js, parametrised by the `new
URL` parser and the fetch environment. `if (!targetParam)` is JavaScript
falsiness: both an absent and an empty-string `target` take the 400 branch.
A parse failure is caught by the try/catch with `e.name = "TypeError"`. -/
def handler (req : RequestRec) (parse : String → ParseOutcome)
    (fetchEnv : OutboundRequest → FetchOutcome) : HandlerOutput :=
  match getParam req.query "target" with
  | none => { response := errorResponse 400 MISSING_MSG, fetchCall := none }
  | some tv =>
    if tv = "" then { response := errorResponse 400 MISSING_MSG, fetchCall := none }
    else
      match parse tv with
      | .err m =>
        { response := errorResponse 502 ("Proxy Blocked: " ++ blockedMsg "TypeError" m)
          fetchCall := none }
      | .ok u => forwardStage req u fetchEnv

/-- A body chunk together with the instant it arrives from upstream (the
transform never reads a clock, so the instant is dropped before relaying). -/
abbrev TimedChunk := Nat × Chunk

/-- One upstream's behaviour on the timeline that starts when the fetch is
issued (which is when the abort timer is armed, proxy.js lines 44-45):
headers at instant `t`, a network fault at instant `t`, or no answer ever. -/
inductive UpstreamBehavior where
  | respond (t : Nat) (status : Nat) (statusText : String) (headers : HeadersMap)
      (body : Option (List TimedChunk))
  | netError (t : Nat) (name : String) (message : String)
  | silent

/-- The rejection `fetch` produces when the abort signal fires. -/
def ABORT_OUTCOME : FetchOutcome := .failure "AbortError" "The operation was aborted"

/-- Semantics of `fetch` bound to the `setTimeout`-driven AbortController:
the timer fires at `MAX_DURATION_MS`, so an upstream event at or after that
instant is preempted by the abort and the fetch rejects with an
`AbortError`; an earlier event is delivered as is. -/
def timedFetch : UpstreamBehavior → FetchOutcome
  | .respond t s st hs b =>
    if t < MAX_DURATION_MS then .success s st hs (b.map (fun l => l.map Prod.snd))
    else ABORT_OUTCOME
  | .netError t n m =>
    if t < MAX_DURATION_MS then .failure n m else ABORT_OUTCOME
  | .silent => ABORT_OUTCOME

/-- The instant `clearTimeout(timeoutId)` (proxy.js line 58) runs, if it runs
at all: only on the success path, immediately after the awaited fetch
resolves; a rejection jumps to the catch block past the clearTimeout. -/
def timerCleared : UpstreamBehavior → Option Nat
  | .respond t _ _ _ _ => if t < MAX_DURATION_MS then some t else none
  | _ => none

/-- setTimeout semantics: the armed timer fires at `MAX_DURATION_MS` unless
`clearTimeout` ran strictly before that instant. -/
def timerFires (b : UpstreamBehavior) : Bool :=
  match timerCleared b with
  | some c => decide (MAX_DURATION_MS ≤ c)
  | none => true

/-- The deadline's cancellation signal fired before the upstream responded. -/
def deadlineFired : UpstreamBehavior → Prop
  | .respond t _ _ _ _ => MAX_DURATION_MS ≤ t
  | .netError t _ _ => MAX_DURATION_MS ≤ t
  | .silent => True

/-- The handler run against a timed upstream behaviour. -/
def timedHandler (req : RequestRec) (parse : String → ParseOutcome)
    (b : UpstreamBehavior) : HandlerOutput :=
  handler req parse (fun _ => timedFetch b)

/-! ### Lemmas about the query primitives -/

theorem getParam_removeParam_ne (q : List KV) (k k' : String) (h : k' ≠ k) :
    getParam (removeParam q k) k' = getParam q k' := by
  induction q with
  | nil => rfl
  | cons p rest ih =>
    obtain ⟨a, b⟩ := p
    by_cases ha : a = k
    · simp [removeParam, getParam, ha, Ne.symm h, ih]
    · by_cases ha' : a = k'
      · simp [removeParam, getParam, ha, ha', h]
      · simp [removeParam, getParam, ha, ha', ih]

theorem countKey_removeParam_self (q : List KV) (k : String) :
    countKey (removeParam q k) k = 0 := by
  induction q with
  | nil => rfl
  | cons p rest ih =>
    obtain ⟨a, b⟩ := p
    by_cases ha : a = k
    · simp [removeParam, ha, ih]
    · simp [removeParam, countKey, ha, ih]

theorem countKey_removeParam_ne (q : List KV) (k k' : String) (h : k' ≠ k) :
    countKey (removeParam q k) k' = countKey q k' := by
  induction q with
  | nil => rfl
  | cons p rest ih =>
    obtain ⟨a, b⟩ := p
    by_cases ha : a = k
    · simp [removeParam, countKey, ha, Ne.symm h, ih]
    · simp [removeParam, countKey, ha, ih]

theorem getParam_setParam_self (q : List KV) (k v : String) :
    getParam (setParam q k v) k = some v := by
  induction q with
  | nil => simp [setParam, getParam]
  | cons p rest ih =>
    obtain ⟨a, b⟩ := p
    by_cases ha : a = k
    · simp [setParam, getParam, ha]
    · simp [setParam, getParam, ha, ih]

theorem getParam_setParam_ne (q : List KV) (k v k' : String) (h : k' ≠ k) :
    getParam (setParam q k v) k' = getParam q k' := by
  induction q with
  | nil => simp [setParam, getParam, Ne.symm h]
  | cons p rest ih =>
    obtain ⟨a, b⟩ := p
    by_cases ha : a = k
    · simp [setParam, getParam, ha, Ne.symm h, getParam_removeParam_ne rest k k' h]
    · by_cases ha' : a = k'
      · simp [setParam, getParam, ha, ha', h]
      · simp [setParam, getParam, ha, ha', ih]

theorem countKey_setParam_self (q : List KV) (k v : String) :
    countKey (setParam q k v) k = 1 := by
  induction q with
  | nil => simp [setParam, countKey]
  | cons p rest ih =>
    obtain ⟨a, b⟩ := p
    by_cases ha : a = k
    · simp [setParam, countKey, ha, countKey_removeParam_self rest k]
    · simp [setParam, countKey, ha, ih]

theorem countKey_setParam_ne (q : List KV) (k v k' : String) (h : k' ≠ k) :
    countKey (setParam q k v) k' = countKey q k' := by
  induction q with
  | nil => simp [setParam, countKey, Ne.symm h]
  | cons p rest ih =>
    obtain ⟨a, b⟩ := p
    by_cases ha : a = k
    · simp [setParam, countKey, ha, Ne.symm h, countKey_removeParam_ne rest k k' h]
    · simp [setParam, countKey, ha, ih]

theorem lastVal_eq_none_iff (q : List KV) (k : String) :
    lastVal q k = none ↔ k ∉ keysOf q := by
  induction q with
  | nil => simp [lastVal, keysOf]
  | cons p rest ih =>
    obtain ⟨a, b⟩ := p
    by_cases ha : a = k
    · constructor
      · intro h
        exfalso
        rw [lastVal] at h
        rcases hl : lastVal rest k with _ | w
        · rw [hl] at h; simp [ha] at h
        · rw [hl] at h; simp at h
      · intro h
        exfalso
        exact h (by simp [keysOf, ha])
    · constructor
      · intro h
        rw [lastVal] at h
        rcases hl : lastVal rest k with _ | w
        · simp [keysOf] at ih ⊢
          exact ⟨fun hak => ha hak.symm, ih.mp hl⟩
        · rw [hl] at h; simp at h
      · intro h
        simp [keysOf] at h
        rw [lastVal, ih.mpr (by simp [keysOf]; exact h.2)]
        simp [ha]


/-- Keys never mentioned by the inbound query are untouched by the merge
loop: lookup and multiplicity agree with the target URL's own query. -/
theorem mergeQuery_not_mem (inq : List KV) (k : String) :
    ∀ tq : List KV, k ∉ keysOf inq →
      getParam (mergeQuery tq inq) k = getParam tq k ∧
      countKey (mergeQuery tq inq) k = countKey tq k := by
  induction inq with
  | nil => intro tq _; exact ⟨rfl, rfl⟩
  | cons p rest ih =>
    intro tq hk
    have hk1 : p.1 ≠ k := by
      intro he
      exact hk (by simp [keysOf, he])
    have hk2 : k ∉ keysOf rest := by
      intro hm
      exact hk (by simp [keysOf] at hm ⊢; exact Or.inr hm)
    by_cases ht : p.1 = "target"
    · have hstep : mergeQuery tq (p :: rest) = mergeQuery tq rest := by
        simp [mergeQuery, List.foldl_cons, ht]
      rw [hstep]
      exact ih tq hk2
    · have hstep : mergeQuery tq (p :: rest) = mergeQuery (setParam tq p.1 p.2) rest := by
        simp [mergeQuery, List.foldl_cons, ht]
      rw [hstep]
      obtain ⟨hg, hc⟩ := ih (setParam tq p.1 p.2) hk2
      rw [hg, hc, getParam_setParam_ne tq p.1 p.2 k (Ne.symm hk1),
          countKey_setParam_ne tq p.1 p.2 k (Ne.symm hk1)]
      exact ⟨rfl, rfl⟩

/-- A non-`target` key mentioned by the inbound query ends up, after the
merge loop, with exactly one pair whose value is the last inbound value. -/
theorem mergeQuery_mem (inq : List KV) (k : String) :
    ∀ tq : List KV, k ≠ "target" → k ∈ keysOf inq →
      getParam (mergeQuery tq inq) k = lastVal inq k ∧
      countKey (mergeQuery tq inq) k = 1 := by
  induction inq with
  | nil => intro tq _ hk; simp [keysOf] at hk
  | cons p rest ih =>
    intro tq hkt hk
    obtain ⟨a, b⟩ := p
    by_cases hr : k ∈ keysOf rest
    · obtain ⟨w, hw⟩ : ∃ w, lastVal rest k = some w := by
        rcases hl : lastVal rest k with _ | w
        · exact absurd ((lastVal_eq_none_iff rest k).mp hl) (by simpa using hr)
        · exact ⟨w, rfl⟩
      have hstep : mergeQuery tq ((a, b) :: rest) =
          mergeQuery (if a = "target" then tq else setParam tq a b) rest := by
        by_cases ht : a = "target" <;> simp [mergeQuery, List.foldl_cons, ht]
      rw [hstep]
      obtain ⟨hg, hc⟩ := ih (if a = "target" then tq else setParam tq a b) hkt hr
      refine ⟨?_, hc⟩
      rw [hg]
      simp [lastVal, hw]
    · have hak : a = k := by
        simp [keysOf] at hk
        rcases hk with hk | hk
        · exact hk.symm
        · exact absurd (by simpa [keysOf] using hk) hr
      subst hak
      have hstep : mergeQuery tq ((a, b) :: rest) = mergeQuery (setParam tq a b) rest := by
        simp [mergeQuery, List.foldl_cons, hkt]
      rw [hstep]
      obtain ⟨hg, hc⟩ := mergeQuery_not_mem rest a (setParam tq a b) hr
      rw [hg, hc, getParam_setParam_self, countKey_setParam_self]
      have hnone : lastVal rest a = none := (lastVal_eq_none_iff rest a).mpr hr
      exact ⟨by simp [lastVal, hnone], rfl⟩

/-! ### Lemmas about the counting relay -/

/-- A stream whose total size never pushes the counter past the limit is
relayed whole and closes cleanly. -/
theorem relay_complete (limit : Nat) (chunks : List Chunk) :
    ∀ n : Nat, n + (chunks.map List.length).sum ≤ limit →
      relay limit n chunks = .complete chunks := by
  induction chunks with
  | nil => intro n _; rfl
  | cons c rest ih =>
    intro n h
    simp [List.map_cons, List.sum_cons] at h
    have hle : ¬ n + c.length > limit := by omega
    rw [relay, if_neg hle, ih (n + c.length) (by omega)]
    rfl

/-- A stream whose total size pushes the counter past the limit is relayed
exactly up to the chunk that crosses the threshold; that chunk is dropped
whole and the stream is errored with the traffic message. -/
theorem relay_exceeds (limit : Nat) (chunks : List Chunk) :
    ∀ n : Nat, n ≤ limit → limit < n + (chunks.map List.length).sum →
      ∃ i, i < chunks.length ∧
        relay limit n chunks = .errored (chunks.take i) TRAFFIC_MSG ∧
        n + ((chunks.take i).map List.length).sum ≤ limit ∧
        limit < n + ((chunks.take (i + 1)).map List.length).sum := by
  induction chunks with
  | nil => intro n h1 h2; simp at h2; omega
  | cons c rest ih =>
    intro n h1 h2
    by_cases hc : n + c.length > limit
    · refine ⟨0, by simp, ?_, by simpa using h1, by simpa using hc⟩
      rw [relay, if_pos hc]
      simp
    · push_neg at hc
      have h2' : limit < (n + c.length) + (rest.map List.length).sum := by
        simp [List.map_cons, List.sum_cons] at h2
        omega
      obtain ⟨i, hi, heq, hle, hgt⟩ := ih (n + c.length) hc h2'
      refine ⟨i + 1, by simpa using hi, ?_, ?_, ?_⟩
      · rw [relay, if_neg (by omega), heq]
        simp [StreamResult.prepend, List.take_succ_cons]
      · simp only [List.take_succ_cons, List.map_cons, List.sum_cons]
        omega
      · simp only [List.take_succ_cons, List.map_cons, List.sum_cons]
        omega

/-! ### Handler-level helpers -/

/-- Once `target` is present, non-empty and parses, the handler is the
forwarding stage on the parsed URL. -/
theorem handler_ok (req : RequestRec) (parse : String → ParseOutcome)
    (fetchEnv : OutboundRequest → FetchOutcome) (tv : String) (u : URLRec)
    (h1 : getParam req.query "target" = some tv) (h2 : tv ≠ "")
    (h3 : parse tv = .ok u) :
    handler req parse fetchEnv = forwardStage req u fetchEnv := by
  simp [handler, h1, h2, h3]

/-- The forwarding stage always records the derived fetch call. -/
theorem forwardStage_fetchCall (req : RequestRec) (u : URLRec)
    (fetchEnv : OutboundRequest → FetchOutcome) :
    (forwardStage req u fetchEnv).fetchCall = some (derivedRequest req u) := by
  rw [forwardStage]
  rcases fetchEnv (derivedRequest req u) with _ | _ <;> rfl

/-! ### Concrete sample inputs for the witnesses -/

def sampleURL : URLRec :=
  { scheme := "https", host := "example.com", pathname := "/bar"
    query := [("x", "0"), ("y", "9")] }

/-- A parse oracle recognising one absolute URL and rejecting the rest the
way `new URL` reports a malformed value. -/
def sampleParse : String → ParseOutcome := fun s =>
  if s = "https://example.com/bar?x=0&y=9" then .ok sampleURL
  else .err "Invalid URL"

def sampleHeaders : HeadersMap := fun k =>
  if k = "host" then some "proxy.example"
  else if k = "x-forwarded-host" then some "proxy.example"
  else if k = "x-vercel-id" then some "iad1:abcd"
  else if k = "accept" then some "text/html"
  else none

def sampleReq : RequestRec :=
  { method := "GET", path := "/foo"
    query := [("target", "https://example.com/bar?x=0&y=9"), ("x", "1"), ("x", "2")]
    headers := sampleHeaders, body := none }

def noTargetReq : RequestRec :=
  { method := "GET", path := "/foo", query := [("x", "1")]
    headers := emptyHeaders, body := none }

def emptyTargetReq : RequestRec :=
  { method := "GET", path := "/foo", query := [("target", ""), ("x", "1")]
    headers := emptyHeaders, body := none }

def badTargetReq : RequestRec :=
  { method := "GET", path := "/foo", query := [("target", "notaurl")]
    headers := emptyHeaders, body := none }

def sampleEnv : OutboundRequest → FetchOutcome := fun _ =>
  .success 200 "OK" emptyHeaders (some [[1, 2, 3]])

/-! ### Claims -/

/-- C1: a request whose query string has no `target` parameter gets a
response with status exactly 400 and the plain-text error body, and no
upstream fetch call is made. -/
theorem missingTarget_rejected (req : RequestRec) (parse : String → ParseOutcome)
    (fetchEnv : OutboundRequest → FetchOutcome)
    (h : getParam req.query "target" = none) :
    (handler req parse fetchEnv).response.status = 400 ∧
    (handler req parse fetchEnv).response.body =
      .text "Error: Missing \"target\" query parameter." ∧
    (handler req parse fetchEnv).fetchCall = none := by
  simp [handler, h, errorResponse, MISSING_MSG]

theorem missingTarget_rejected_witness :
    getParam noTargetReq.query "target" = none ∧
    (handler noTargetReq sampleParse sampleEnv).response.status = 400 ∧
    (handler noTargetReq sampleParse sampleEnv).fetchCall = none := by
  refine ⟨by decide, ?_, ?_⟩
  · exact (missingTarget_rejected noTargetReq sampleParse sampleEnv (by decide)).1
  · exact (missingTarget_rejected noTargetReq sampleParse sampleEnv (by decide)).2.2

/-- C2: a request whose `target` value is present (and non-empty, hence
past the falsiness check) but fails URL parsing gets status 502 with body
`Proxy Blocked: ` followed by the parse error's message, and no upstream
fetch call is made. -/
theorem invalidTarget_rejected (req : RequestRec) (parse : String → ParseOutcome)
    (fetchEnv : OutboundRequest → FetchOutcome) (tv m : String)
    (h1 : getParam req.query "target" = some tv) (h2 : tv ≠ "")
    (h3 : parse tv = .err m) :
    (handler req parse fetchEnv).response.status = 502 ∧
    (handler req parse fetchEnv).response.body = .text ("Proxy Blocked: " ++ m) ∧
    (handler req parse fetchEnv).fetchCall = none := by
  have hname : blockedMsg "TypeError" m = m := by
    rw [blockedMsg, if_neg (by decide)]
  simp [handler, h1, h2, h3, errorResponse, hname]

theorem invalidTarget_rejected_witness :
    getParam badTargetReq.query "target" = some "notaurl" ∧
    sampleParse "notaurl" = .err "Invalid URL" ∧
    (handler badTargetReq sampleParse sampleEnv).response.status = 502 ∧
    (handler badTargetReq sampleParse sampleEnv).response.body =
      .text "Proxy Blocked: Invalid URL" ∧
    (handler badTargetReq sampleParse sampleEnv).fetchCall = none := by
  have h := invalidTarget_rejected badTargetReq sampleParse sampleEnv "notaurl"
    "Invalid URL" (by decide) (by decide) (by simp [sampleParse])
  exact ⟨by decide, by simp [sampleParse], h.1, h.2.1, h.2.2⟩

/-- C10: a request whose `target` parameter is present with an empty-string
value is treated like a missing `target`: status 400 with the MissingTarget
body, no fetch call, and the outcome does not depend on the URL parser at
all (no parsing of the value is attempted). -/
theorem emptyTarget_rejected (req : RequestRec)
    (parse altParse : String → ParseOutcome)
    (fetchEnv : OutboundRequest → FetchOutcome)
    (h : getParam req.query "target" = some "") :
    (handler req parse fetchEnv).response.status = 400 ∧
    (handler req parse fetchEnv).response.body =
      .text "Error: Missing \"target\" query parameter." ∧
    (handler req parse fetchEnv).fetchCall = none ∧
    handler req parse fetchEnv = handler req altParse fetchEnv := by
  simp [handler, h, errorResponse, MISSING_MSG]

theorem emptyTarget_rejected_witness :
    getParam emptyTargetReq.query "target" = some "" ∧
    (handler emptyTargetReq sampleParse sampleEnv).response.status = 400 ∧
    (handler emptyTargetReq sampleParse sampleEnv).fetchCall = none := by
  have h := emptyTarget_rejected emptyTargetReq sampleParse
    (fun _ => .err "unused") sampleEnv (by decide)
  exact ⟨by decide, h.1, h.2.2.1⟩

/-- C3: for every well-formed request the fetch call the handler issues uses
the derived URL, and that URL's path is the inbound request's path — the
path component of `target` (arbitrary in `u`) is discarded. -/
theorem path_overridden (req : RequestRec) (parse : String → ParseOutcome)
    (fetchEnv : OutboundRequest → FetchOutcome) (tv : String) (u : URLRec)
    (h1 : getParam req.query "target" = some tv) (h2 : tv ≠ "")
    (h3 : parse tv = .ok u) :
    (handler req parse fetchEnv).fetchCall = some (derivedRequest req u) ∧
    (derivedRequest req u).url.pathname = req.path := by
  refine ⟨?_, rfl⟩
  rw [handler_ok req parse fetchEnv tv u h1 h2 h3]
  exact forwardStage_fetchCall req u fetchEnv

theorem path_overridden_witness :
    sampleURL.pathname = "/bar" ∧ sampleReq.path = "/foo" ∧
    (handler sampleReq sampleParse sampleEnv).fetchCall =
      some (derivedRequest sampleReq sampleURL) ∧
    (derivedRequest sampleReq sampleURL).url.pathname = "/foo" := by
  have h := path_overridden sampleReq sampleParse sampleEnv
    "https://example.com/bar?x=0&y=9" sampleURL (by decide) (by decide)
    (by simp [sampleParse])
  exact ⟨rfl, rfl, h.1, h.2⟩

/-- C4: on the fetch call the handler issues, every inbound query key other
than `target` ends up with exactly one pair holding the last inbound value
(set semantics, overwriting whatever `target` carried for that key), while
keys the inbound query does not mention keep the value from `target`'s own
query string. -/
theorem query_merge_semantics (req : RequestRec) (parse : String → ParseOutcome)
    (fetchEnv : OutboundRequest → FetchOutcome) (tv : String) (u : URLRec)
    (h1 : getParam req.query "target" = some tv) (h2 : tv ≠ "")
    (h3 : parse tv = .ok u) :
    (handler req parse fetchEnv).fetchCall = some (derivedRequest req u) ∧
    (∀ k, k ≠ "target" → k ∈ keysOf req.query →
      getParam (derivedRequest req u).url.query k = lastVal req.query k ∧
      countKey (derivedRequest req u).url.query k = 1) ∧
    (∀ k, k ∉ keysOf req.query →
      getParam (derivedRequest req u).url.query k = getParam u.query k) := by
  have hq : (derivedRequest req u).url.query = mergeQuery u.query req.query := rfl
  refine ⟨?_, ?_, ?_⟩
  · rw [handler_ok req parse fetchEnv tv u h1 h2 h3]
    exact forwardStage_fetchCall req u fetchEnv
  · intro k hkt hk
    rw [hq]
    exact mergeQuery_mem req.query k u.query hkt hk
  · intro k hk
    rw [hq]
    exact (mergeQuery_not_mem req.query k u.query hk).1

theorem query_merge_semantics_witness :
    getParam (derivedRequest sampleReq sampleURL).url.query "x" = some "2" ∧
    countKey (derivedRequest sampleReq sampleURL).url.query "x" = 1 ∧
    getParam (derivedRequest sampleReq sampleURL).url.query "y" = some "9" := by
  have h := query_merge_semantics sampleReq sampleParse sampleEnv
    "https://example.com/bar?x=0&y=9" sampleURL (by decide) (by decide)
    (by simp [sampleParse])
  obtain ⟨hx1, hx2⟩ := h.2.1 "x" (by decide) (by decide)
  refine ⟨?_, hx2, ?_⟩
  · rw [hx1]; decide
  · rw [h.2.2 "y" (by decide)]; decide

/-- C5: the headers of the fetch call the handler issues are the inbound
headers with exactly three changes — `host` set to the derived URL's
authority (`u.host`), `x-forwarded-host` removed and `x-vercel-id` removed;
every other header name keeps the inbound value (the rewrite is a total
function: it has no failure mode). -/
theorem header_rewrite_exact (req : RequestRec) (parse : String → ParseOutcome)
    (fetchEnv : OutboundRequest → FetchOutcome) (tv : String) (u : URLRec)
    (h1 : getParam req.query "target" = some tv) (h2 : tv ≠ "")
    (h3 : parse tv = .ok u) :
    (handler req parse fetchEnv).fetchCall = some (derivedRequest req u) ∧
    ∀ k, (derivedRequest req u).headers k =
      if k = "host" then some u.host
      else if k = "x-forwarded-host" then none
      else if k = "x-vercel-id" then none
      else req.headers k := by
  refine ⟨?_, ?_⟩
  · rw [handler_ok req parse fetchEnv tv u h1 h2 h3]
    exact forwardStage_fetchCall req u fetchEnv
  · intro k
    show hdel (hdel (hset req.headers "host" (derivedURL req u).host)
      "x-forwarded-host") "x-vercel-id" k = _
    have hhost : (derivedURL req u).host = u.host := rfl
    rw [hhost]
    simp only [hdel, hset]
    split_ifs <;> simp_all

theorem header_rewrite_exact_witness :
    (derivedRequest sampleReq sampleURL).headers "host" = some "example.com" ∧
    (derivedRequest sampleReq sampleURL).headers "x-forwarded-host" = none ∧
    (derivedRequest sampleReq sampleURL).headers "x-vercel-id" = none ∧
    (derivedRequest sampleReq sampleURL).headers "accept" = some "text/html" := by
  have h := header_rewrite_exact sampleReq sampleParse sampleEnv
    "https://example.com/bar?x=0&y=9" sampleURL (by decide) (by decide)
    (by simp [sampleParse])
  refine ⟨?_, ?_, ?_, ?_⟩
  · rw [h.2 "host"]; decide
  · rw [h.2 "x-forwarded-host"]; decide
  · rw [h.2 "x-vercel-id"]; decide
  · rw [h.2 "accept"]; decide

/-- Extra concrete inputs for the streaming and timing witnesses. -/
def bigChunk : Chunk := List.replicate 6000000 0

def bigEnv : OutboundRequest → FetchOutcome := fun _ =>
  .success 200 "OK" emptyHeaders (some [bigChunk, bigChunk])

/-- C6: when the upstream body's chunks total at most MAX_BYTES, the relay
delivers every chunk unmodified and closes cleanly, and the caller-facing
response carries the upstream status, statusText and headers. -/
theorem within_limit_full_relay (req : RequestRec) (parse : String → ParseOutcome)
    (fetchEnv : OutboundRequest → FetchOutcome) (tv : String) (u : URLRec)
    (status : Nat) (st : String) (rh : HeadersMap) (chunks : List Chunk)
    (h1 : getParam req.query "target" = some tv) (h2 : tv ≠ "")
    (h3 : parse tv = .ok u)
    (h4 : fetchEnv (derivedRequest req u) = .success status st rh (some chunks))
    (h5 : (chunks.map List.length).sum ≤ MAX_BYTES) :
    (handler req parse fetchEnv).response.status = status ∧
    (handler req parse fetchEnv).response.statusText = st ∧
    (handler req parse fetchEnv).response.headers = rh ∧
    (handler req parse fetchEnv).response.body = .stream (.complete chunks) := by
  have hrel : relay MAX_BYTES 0 chunks = .complete chunks :=
    relay_complete MAX_BYTES chunks 0 (by omega)
  rw [handler_ok req parse fetchEnv tv u h1 h2 h3]
  simp [forwardStage, h4, upstreamBody, hrel]

theorem within_limit_full_relay_witness :
    (([[1, 2, 3]] : List Chunk).map List.length).sum ≤ MAX_BYTES ∧
    (handler sampleReq sampleParse sampleEnv).response.status = 200 ∧
    (handler sampleReq sampleParse sampleEnv).response.body =
      .stream (.complete [[1, 2, 3]]) := by
  have h := within_limit_full_relay sampleReq sampleParse sampleEnv
    "https://example.com/bar?x=0&y=9" sampleURL 200 "OK" emptyHeaders
    [[1, 2, 3]] (by decide) (by decide) (by simp [sampleParse]) rfl (by decide)
  exact ⟨by decide, h.1, h.2.2.2⟩

/-- C7: when the upstream body's chunks total more than MAX_BYTES, the relay
delivers exactly the chunks before the threshold-crossing chunk (the
crossing chunk is dropped whole), then errors the stream with the traffic
message; the handler still returns normally, with the upstream status. -/
theorem over_limit_truncated (req : RequestRec) (parse : String → ParseOutcome)
    (fetchEnv : OutboundRequest → FetchOutcome) (tv : String) (u : URLRec)
    (status : Nat) (st : String) (rh : HeadersMap) (chunks : List Chunk)
    (h1 : getParam req.query "target" = some tv) (h2 : tv ≠ "")
    (h3 : parse tv = .ok u)
    (h4 : fetchEnv (derivedRequest req u) = .success status st rh (some chunks))
    (h5 : MAX_BYTES < (chunks.map List.length).sum) :
    ∃ i, i < chunks.length ∧
      (handler req parse fetchEnv).response.body =
        .stream (.errored (chunks.take i) TRAFFIC_MSG) ∧
      ((chunks.take i).map List.length).sum ≤ MAX_BYTES ∧
      MAX_BYTES < ((chunks.take (i + 1)).map List.length).sum ∧
      (handler req parse fetchEnv).response.status = status := by
  obtain ⟨i, hi, heq, hle, hgt⟩ :=
    relay_exceeds MAX_BYTES chunks 0 (Nat.zero_le _) (by omega)
  rw [handler_ok req parse fetchEnv tv u h1 h2 h3]
  refine ⟨i, hi, ?_, by omega, by omega, ?_⟩
  · simp [forwardStage, h4, upstreamBody, heq]
  · simp [forwardStage, h4]

theorem over_limit_truncated_witness :
    MAX_BYTES < (([bigChunk, bigChunk] : List Chunk).map List.length).sum ∧
    (handler sampleReq sampleParse bigEnv).response.body =
      .stream (.errored [bigChunk] TRAFFIC_MSG) ∧
    (handler sampleReq sampleParse bigEnv).response.status = 200 := by
  have hlen : bigChunk.length = 6000000 := by
    rw [bigChunk, List.length_replicate]
  have hsum : (([bigChunk, bigChunk] : List Chunk).map List.length).sum = 12000000 := by
    simp [hlen]
  have hbig : MAX_BYTES < (([bigChunk, bigChunk] : List Chunk).map List.length).sum := by
    rw [hsum]; decide
  obtain ⟨i, hi, hbody, hle, hgt, hstat⟩ := over_limit_truncated sampleReq sampleParse
    bigEnv "https://example.com/bar?x=0&y=9" sampleURL 200 "OK" emptyHeaders
    [bigChunk, bigChunk] (by decide) (by decide) (by simp [sampleParse]) rfl hbig
  have hi1 : i = 1 := by
    rcases i with _ | _ | i
    · exfalso
      simp [hlen] at hgt
      exact absurd hgt (by decide)
    · rfl
    · simp at hi
      omega
  subst hi1
  exact ⟨hbig, by simpa using hbody, hstat⟩

/-- C8: a well-formed request whose upstream call was preempted by the
deadline's abort signal is answered 502 with the fixed timeout body, while a
network fault delivered before the deadline (any error name other than
`AbortError`) is answered 502 with the underlying message — the two cases
are told apart by the failure's name. -/
theorem timeout_reported (req : RequestRec) (parse : String → ParseOutcome)
    (tv : String) (u : URLRec)
    (h1 : getParam req.query "target" = some tv) (h2 : tv ≠ "")
    (h3 : parse tv = .ok u) (b : UpstreamBehavior) :
    (deadlineFired b →
      (timedHandler req parse b).response.status = 502 ∧
      (timedHandler req parse b).response.body =
        .text "Proxy Blocked: Connection Timed Out (Policy Limit)") ∧
    (∀ t n m, t < MAX_DURATION_MS → n ≠ "AbortError" →
      (timedHandler req parse (.netError t n m)).response.status = 502 ∧
      (timedHandler req parse (.netError t n m)).response.body =
        .text ("Proxy Blocked: " ++ m)) := by
  constructor
  · intro hb
    have habort : timedFetch b = ABORT_OUTCOME := by
      cases b with
      | respond t s st hs body =>
        simp [deadlineFired] at hb
        simp [timedFetch, Nat.not_lt.mpr hb]
      | netError t n m =>
        simp [deadlineFired] at hb
        simp [timedFetch, Nat.not_lt.mpr hb]
      | silent => rfl
    rw [timedHandler, handler_ok req parse _ tv u h1 h2 h3]
    have hmsg : blockedMsg "AbortError" "The operation was aborted" =
        "Connection Timed Out (Policy Limit)" := by
      rw [blockedMsg, if_pos rfl]
    constructor
    · simp [forwardStage, habort, ABORT_OUTCOME, errorResponse]
    · simp [forwardStage, habort, ABORT_OUTCOME, errorResponse, hmsg]
  · intro t n m ht hn
    have hfail : timedFetch (.netError t n m) = .failure n m := by
      simp [timedFetch, ht]
    have hmsg : blockedMsg n m = m := by rw [blockedMsg, if_neg hn]
    rw [timedHandler, handler_ok req parse _ tv u h1 h2 h3]
    constructor
    · simp [forwardStage, hfail, errorResponse]
    · simp [forwardStage, hfail, errorResponse, hmsg]

theorem timeout_reported_witness :
    deadlineFired UpstreamBehavior.silent ∧
    (timedHandler sampleReq sampleParse .silent).response.status = 502 ∧
    (timedHandler sampleReq sampleParse .silent).response.body =
      .text "Proxy Blocked: Connection Timed Out (Policy Limit)" ∧
    (timedHandler sampleReq sampleParse
      (.netError 100 "TypeError" "fetch failed")).response.body =
      .text "Proxy Blocked: fetch failed" := by
  have h := timeout_reported sampleReq sampleParse
    "https://example.com/bar?x=0&y=9" sampleURL (by decide) (by decide)
    (by simp [sampleParse]) UpstreamBehavior.silent
  have hfix := h.1 trivial
  have hnet := h.2 100 "TypeError" "fetch failed" (by decide) (by decide)
  refine ⟨trivial, hfix.1, hfix.2, ?_⟩
  rw [hnet.2]
  decide

/-- C9: when the upstream's headers arrive strictly inside the deadline, the
timer is cleared at that instant and never fires, so no timeout-driven
cancellation exists during body streaming; and the handler's outcome depends
only on the chunk data, not on the instants at which chunks arrive —
streaming time is unbounded and the byte limit is the only live bound. -/
theorem deadline_disarmed_after_headers (t : Nat) (ht : t < MAX_DURATION_MS)
    (status : Nat) (st : String) (hs : HeadersMap)
    (tc tc' : List TimedChunk)
    (hdata : tc.map Prod.snd = tc'.map Prod.snd)
    (req : RequestRec) (parse : String → ParseOutcome) :
    timerFires (.respond t status st hs (some tc)) = false ∧
    timedHandler req parse (.respond t status st hs (some tc)) =
      timedHandler req parse (.respond t status st hs (some tc')) := by
  constructor
  · simp [timerFires, timerCleared, ht]
  · have hfetch : timedFetch (.respond t status st hs (some tc)) =
        timedFetch (.respond t status st hs (some tc')) := by
      simp [timedFetch, ht, hdata]
    simp [timedHandler, hfetch]

theorem deadline_disarmed_after_headers_witness :
    (100 : Nat) < MAX_DURATION_MS ∧
    ([(0, [1]), (999999999, [2])] : List TimedChunk).map Prod.snd =
      ([(5, [1]), (7, [2])] : List TimedChunk).map Prod.snd ∧
    timerFires (.respond 100 200 "OK" emptyHeaders
      (some [(0, [1]), (999999999, [2])])) = false ∧
    timedHandler sampleReq sampleParse
        (.respond 100 200 "OK" emptyHeaders (some [(0, [1]), (999999999, [2])])) =
      timedHandler sampleReq sampleParse
        (.respond 100 200 "OK" emptyHeaders (some [(5, [1]), (7, [2])])) := by
  have h := deadline_disarmed_after_headers 100 (by decide) 200 "OK" emptyHeaders
    [(0, [1]), (999999999, [2])] [(5, [1]), (7, [2])] (by decide)
    sampleReq sampleParse
  exact ⟨by decide, by decide, h.1, h.2⟩

end VercelToCF
